import Mathlib

set_option maxHeartbeats 1000000

/-! Verification development for the flag-resolution, cache-key and locking
core of a cross-compilation build orchestrator (`src/cargo.rs`,
`src/xargo.rs`).  Hashers are modelled by their transcript: the list of
strings written to them, in order.  The process environment is modelled as
an association list, and filesystem and process effects as explicit inputs. -/

/-- Configuration value tree, modelling the subset of the external `toml`
crate's `Value` type that the program manipulates: strings, integers,
booleans, arrays and key-value tables (key-unique in any parsed document). -/
inductive Value where
  | str : String → Value
  | int : Int → Value
  | boolean : Bool → Value
  | array : List Value → Value
  | table : List (String × Value) → Value

/-- Rust `str::starts_with`, modelled on the character list of the string. -/
def strStartsWith (s p : String) : Bool := p.data.isPrefixOf s.data

/-- Rust `str::ends_with`. -/
def strEndsWith (s p : String) : Bool := p.data.isSuffixOf s.data

/-- Rust `str::contains(" ")`: the string holds a space character (U+0020). -/
def containsSpace (s : String) : Bool := s.data.contains (Char.ofNat 32)

/-- Rust `str::to_uppercase`, restricted to the ASCII mapping used by the
tool-category names the program passes to it. -/
def toUpperStr (s : String) : String := String.mk (s.data.map Char.toUpper)

/-- Process environment, modelling `std::env::var_os`: the value of the first
binding of the requested name, if any. -/
def envVar : List (String × String) → String → Option String
  | [], _ => none
  | (k, v) :: rest, key => if k = key then some v else envVar rest key

/-- Rust `str::split_whitespace`: maximal non-whitespace runs, no empties.
The accumulator holds the current run, reversed. -/
def splitWsAux : List Char → List Char → List String
  | [], [] => []
  | [], acc => [String.mk acc.reverse]
  | c :: rest, acc =>
    if c.isWhitespace then
      if acc.isEmpty then splitWsAux rest []
      else String.mk acc.reverse :: splitWsAux rest []
    else splitWsAux rest (c :: acc)

/-- Whitespace tokenization of an environment-variable value. -/
def splitWhitespace (s : String) : List String := splitWsAux s.data []

/-- Dotted-path segmentation, modelling the external `toml` crate's
`Value::lookup` path syntax `a.b.c`. -/
def splitDotAux : List Char → List Char → List String
  | [], acc => [String.mk acc.reverse]
  | c :: rest, acc =>
    if c = '.' then String.mk acc.reverse :: splitDotAux rest []
    else splitDotAux rest (c :: acc)

/-- Segments of a dotted lookup path. -/
def splitDot (s : String) : List String := splitDotAux s.data []

/-- First binding of a key in a table (tables parsed from documents are
key-unique, so this is the binding of the key). -/
def tableGet : List (String × Value) → String → Option Value
  | [], _ => none
  | (k, v) :: rest, key => if k = key then some v else tableGet rest key

/-- Descend a value along a segmented path, modelling `toml` `Value::lookup`:
each segment indexes into a table; a missing key or a non-table node yields
no result. -/
def lookupPath : Value → List String → Option Value
  | v, [] => some v
  | Value.table kvs, k :: ks =>
    match tableGet kvs k with
    | some v => lookupPath v ks
    | none => none
  | _, _ :: _ => none

/-- Dotted-path lookup in a configuration tree (`toml` `Value::lookup`). -/
def Value.lookup (v : Value) (path : String) : Option Value :=
  lookupPath v (splitDot path)

/-- Extract the strings of an array body; `none` as soon as one element is
not a string (the source breaks out of its loop at the first such element
and returns nothing partial). -/
def asStrings : List Value → Option (List String)
  | [] => some []
  | Value.str s :: rest => (asStrings rest).map (fun xs => s :: xs)
  | _ :: _ => none

/-- Validation of a matched config entry (`src/cargo.rs` lines 93-125): the
entry must be an array of strings, otherwise resolution fails with the given
message and no partial flag list. -/
def checkArray (v : Value) (msg : String) : Except String (List String) :=
  match v with
  | Value.array vs =>
    match asStrings vs with
    | some xs => Except.ok xs
    | none => Except.error msg
  | _ => Except.error msg

/-- Decides whether a config entry is an array of strings. -/
def isStringArray : Value → Bool
  | Value.array vs => vs.all (fun v => match v with | Value.str _ => true | _ => false)
  | _ => false

/-- Project configuration: the directory the `.cargo/config` search stopped
at (`parent_path`) and the parsed tree (`src/cargo.rs` lines 142-146). -/
structure Config where
  parent_path : String
  table : Value

/-- Shallow embedding of `flags` (`src/cargo.rs` lines 74-132): environment
override first, then the target-scoped entry, then the build-wide entry,
then the empty list.  The `env` argument models the process environment. -/
def flags (env : List (String × String)) (config : Option Config)
    (target tool : String) : Except String (List String) :=
  match envVar env (toUpperStr tool) with
  | some t => Except.ok (splitWhitespace t)
  | none =>
    match config with
    | none => Except.ok []
    | some config =>
      match Value.lookup config.table (("target.") ++ target ++ (".") ++ tool) with
      | some array =>
        checkArray array
          ((".cargo/config: target.") ++ target ++ (".") ++ tool
            ++ (" must be an array of strings"))
      | none =>
        match Value.lookup config.table (("build.") ++ tool) with
        | some array =>
          checkArray array
            ((".cargo/config: build.") ++ tool ++ (" must be an array of strings"))
        | none => Except.ok []

/-- Condition from `src/cargo.rs` line 29: the token is a linker-argument
value. -/
def isLinkArg (next : String) : Bool :=
  strStartsWith next ("link-arg=") || strStartsWith next ("link-args=")

/-- Shallow embedding of `Rustflags::hash` (`src/cargo.rs` lines 20-42),
returning the transcript of tokens written to the hasher, in order. -/
def Rustflags.hash : List String → List String
  | [] => []
  | flag :: rest =>
    if flag = ("-C") then
      match rest with
      | [] => [flag]
      | next :: rest2 =>
        if isLinkArg next then Rustflags.hash rest2
        else flag :: next :: Rustflags.hash rest2
    else
      flag :: Rustflags.hash rest

/-- The left-to-right pairing scan of `Rustflags::hash` consumes this token
list completely, ending exactly at its right edge (the list does not end in
a lone marker that would pair with the first token of whatever follows). -/
def scanAligned : List String → Bool
  | [] => true
  | flag :: rest =>
    if flag = ("-C") then
      match rest with
      | [] => false
      | _ :: rest2 => scanAligned rest2
    else scanAligned rest

/-- Error message of `Rustflags::for_xargo` (`src/cargo.rs` lines 48-52)
with the sysroot interpolated. -/
def sysrootSpaceError (sysroot : String) : String :=
  ("Sysroot must not contain spaces!\nSee issue ")
    ++ ("https://github.com/rust-lang/cargo/issues/6139\n\nThe sysroot is `")
    ++ sysroot
    ++ ("`.\n\nTo override this error, you can set the ")
    ++ ("`XBUILD_ALLOW_SYSROOT_SPACES` environment variable.")

/-- Shallow embedding of `Rustflags::for_xargo` (`src/cargo.rs` lines
45-58): `self` is the flag list, `sysroot` the rendering of the sysroot
home, `env` the process environment consulted for the override variable. -/
def Rustflags.for_xargo (env : List (String × String)) (self : List String)
    (sysroot : String) : Except String String :=
  if (envVar env ("XBUILD_ALLOW_SYSROOT_SPACES")).isNone && containsSpace sysroot then
    Except.error (sysrootSpaceError sysroot)
  else
    Except.ok (String.intercalate (" ") (self ++ [("--sysroot"), sysroot]))

/-- Removal of the binding of a key from a table, modelling
`BTreeMap::remove` on the key-unique tables the parser produces. -/
def removeKey : List (String × Value) → String → List (String × Value)
  | [], _ => []
  | kv :: rest, key => if kv.1 = key then rest else kv :: removeKey rest key

mutual
/-- Canonical textual form of a value, modelling the serialization the
external `toml` crate's `Display` provides for `Value::to_string`. -/
def Value.serialize : Value → String
  | Value.str s => ("\x22") ++ s ++ ("\x22")
  | Value.int i => toString i
  | Value.boolean b => toString b
  | Value.array vs => ("[") ++ serializeArr vs ++ ("]")
  | Value.table kvs => serializeTable kvs

/-- Comma-separated serialization of array elements. -/
def serializeArr : List Value → String
  | [] => ""
  | [v] => Value.serialize v
  | v :: rest => Value.serialize v ++ (", ") ++ serializeArr rest

/-- Line-per-binding serialization of table entries. -/
def serializeTable : List (String × Value) → String
  | [] => ""
  | [kv] => kv.1 ++ (" = ") ++ Value.serialize kv.2
  | kv :: rest => kv.1 ++ (" = ") ++ Value.serialize kv.2 ++ ("\n") ++ serializeTable rest
end

/-- Shallow embedding of `Profile::hash` (`src/cargo.rs` lines 195-213),
returning the transcript of strings written to the hasher: clone the
subtree, remove `lto` when the subtree is a table, contribute nothing when
the table became empty, otherwise hash the serialized text. -/
def Profile.hash (self : Value) : List String :=
  match self with
  | Value.table kvs =>
    let t := removeKey kvs ("lto")
    if t.isEmpty then [] else [Value.serialize (Value.table t)]
  | v => [Value.serialize v]

/-- Rust `Path::join`, modelled on slash-separated path strings: an absolute
right operand replaces the base. -/
def pathJoin (base child : String) : String :=
  if strStartsWith child ("/") then child else base ++ ("/") ++ child

/-- Shallow embedding of `Config::target` (`src/cargo.rs` lines 149-174).
The `canonicalize` argument models `Path::canonicalize`: the canonical
absolute path of an existing file, or the underlying I/O error text. -/
def Config.target (canonicalize : String → Except String String) (self : Config) :
    Except String (Option String) :=
  match Value.lookup self.table ("build.target") with
  | none => Except.ok none
  | some v =>
    match v with
    | Value.str t =>
      if strEndsWith t (".json") then
        match canonicalize (pathJoin self.parent_path t) with
        | Except.ok canonical => Except.ok (some canonical)
        | Except.error err =>
          Except.error (("target JSON file ") ++ pathJoin self.parent_path t
            ++ (" does not exist: ") ++ err)
      else Except.ok (some t)
    | _ => Except.error ((".cargo/config: build.target must be a string"))

/-- World of one `xargo::run` invocation (`src/xargo.rs` lines 18-45): the
outcome of rendering the flags, the two triples locked, whether each
read-lock acquisition succeeds, and the outcome of
`run_and_get_status` — `Except.ok s` models the spawned process exiting
with raw status `s`, `Except.error` a spawn failure. -/
structure RunWorld where
  forXargo : Except String String
  hostTriple : String
  targetTriple : String
  lockHostOk : Bool
  lockTargetOk : Bool
  spawnResult : Except String Int

/-- Observable resource events of one invocation. -/
inductive Event where
  | acquireRO : String → Bool → Event
  | spawn : Event
  | releaseRO : String → Event
deriving DecidableEq

/-- Release events emitted when the tuple of lock results is dropped: Rust
drops tuple fields in order, and dropping an `Err` releases nothing. -/
def dropLocks (w : RunWorld) : List Event :=
  (if w.lockHostOk then [Event.releaseRO w.hostTriple] else [])
    ++ (if w.lockTargetOk then [Event.releaseRO w.targetTriple] else [])

/-- Shallow embedding of `xargo::run` (`src/xargo.rs` lines 18-45):
result of the call paired with the trace of resource events.  Rendering
failure returns early before any lock is touched; otherwise both lock
results are stored unexamined, the process runs, and the lock tuple is
dropped after it exits — by `mem::drop` on the success path and by scope
exit on the early-return path of a spawn failure. -/
def xargo.run (w : RunWorld) : Except String Int × List Event :=
  match w.forXargo with
  | Except.error e => (Except.error e, [])
  | Except.ok _ =>
    let pre := [Event.acquireRO w.hostTriple w.lockHostOk,
                Event.acquireRO w.targetTriple w.lockTargetOk]
    match w.spawnResult with
    | Except.error e => (Except.error e, pre ++ [Event.spawn] ++ dropLocks w)
    | Except.ok status => (Except.ok status, pre ++ [Event.spawn] ++ dropLocks w)

/-- Removal of the first occurrence of a string from a list. -/
def removeFirst : List String → String → List String
  | [], _ => []
  | x :: xs, t => if x = t then xs else x :: removeFirst xs t

/-- Effect of one event on the multiset of held locks (represented as a
list of triples): a successful acquisition adds the triple, a release
removes one occurrence, spawning changes nothing. -/
def applyEvent (held : List String) : Event → List String
  | Event.acquireRO t ok => if ok then t :: held else held
  | Event.releaseRO t => removeFirst held t
  | Event.spawn => held

/-- Locks still held after a trace has run from no locks held. -/
def heldAfter (es : List Event) : List String := es.foldl applyEvent []

/-- Locks held at the moment the external process is spawned. -/
def heldBeforeSpawn (w : RunWorld) : List String :=
  heldAfter (((xargo.run w).2).takeWhile (fun e => decide (e ≠ Event.spawn)))

/-- Sentinel file guarding one triple's sysroot subtree, from `Home::path`
and the lock calls (`src/xargo.rs` lines 56-72):
`<sysroot>/lib/rustlib/<triple>/.sentinel`. -/
def lockPath (sysroot triple : String) : String :=
  sysroot ++ ("/lib/rustlib/") ++ triple ++ ("/.sentinel")

/-- Modelled from the spec: the advisory file-lock state of `flock.rs`,
which is repository code not present under `src/`.  Per sentinel path it
records the read locks and write locks currently held (spec section 4.4). -/
structure LockState where
  readers : List String
  writers : List String

/-- Modelled from the spec: `Home::lock_ro` semantics — a shared lock on the
triple's sentinel path succeeds exactly when no exclusive lock on that path
is held. -/
def Home.lock_ro (st : LockState) (p : String) : Option LockState :=
  if p ∈ st.writers then none
  else some { readers := p :: st.readers, writers := st.writers }

/-- Modelled from the spec: `Home::lock_rw` semantics — an exclusive lock on
the triple's sentinel path succeeds exactly when no lock of either mode on
that path is held. -/
def Home.lock_rw (st : LockState) (p : String) : Option LockState :=
  if p ∈ st.writers ∨ p ∈ st.readers then none
  else some { readers := st.readers, writers := p :: st.writers }

/-- Release of one held shared lock. -/
def releaseRoLock (st : LockState) (p : String) : LockState :=
  { readers := removeFirst st.readers p, writers := st.writers }

/-- Release of one held exclusive lock. -/
def releaseRwLock (st : LockState) (p : String) : LockState :=
  { readers := st.readers, writers := removeFirst st.writers p }

/-- Acquisition in either mode (`true` = exclusive). -/
def acquire : Bool → LockState → String → Option LockState
  | true, st, p => Home.lock_rw st p
  | false, st, p => Home.lock_ro st p

/-- Lock states reachable from the unlocked state by acquisitions and
releases in any interleaving. -/
inductive Reach : LockState → Prop where
  | init : Reach { readers := [], writers := [] }
  | ro {st st' p} : Reach st → Home.lock_ro st p = some st' → Reach st'
  | rw {st st' p} : Reach st → Home.lock_rw st p = some st' → Reach st'
  | relRO {st p} : Reach st → Reach (releaseRoLock st p)
  | relRW {st p} : Reach st → Reach (releaseRwLock st p)

/-! Helper lemmas for the pairing scan of `Rustflags::hash`. -/

/-- Alignment of the scan is unaffected by a complete marker-argument pair. -/
theorem scanAligned_cons_cons (a : String) (b : List String) :
    scanAligned (("-C") :: a :: b) = scanAligned b := by
  rw [scanAligned.eq_def]
  simp

/-- Scan step: a marker followed by a linker-argument value hashes neither. -/
theorem hash_linkArg_cons (a : String) (b : List String) (hla : isLinkArg a = true) :
    Rustflags.hash (("-C") :: a :: b) = Rustflags.hash b := by
  rw [Rustflags.hash.eq_def]
  simp [hla]

/-- Scan step: a marker followed by any other token hashes both. -/
theorem hash_pair_cons (a : String) (b : List String) (hla : ¬isLinkArg a = true) :
    Rustflags.hash (("-C") :: a :: b) = ("-C") :: a :: Rustflags.hash b := by
  rw [Rustflags.hash.eq_def]
  simp [hla]

/-- Scan step: a non-marker current token is hashed individually. -/
theorem hash_other_cons (a : String) (b : List String) (ha : ¬a = ("-C")) :
    Rustflags.hash (a :: b) = a :: Rustflags.hash b := by
  rw [Rustflags.hash.eq_def]
  simp [ha]

/-- The hash transcript splits over a scan-aligned piece of the flag list. -/
theorem hash_append_of_aligned (l : List String) (pre : List String)
    (h : scanAligned pre = true) :
    Rustflags.hash (pre ++ l) = Rustflags.hash pre ++ Rustflags.hash l := by
  induction pre using Rustflags.hash.induct
  case case1 => simp [show Rustflags.hash ([] : List String) = [] from rfl]
  case case2 => exact absurd h (by decide)
  case case3 a b hla ih =>
    rw [scanAligned_cons_cons] at h
    rw [List.cons_append, List.cons_append, hash_linkArg_cons a (b ++ l) hla,
      hash_linkArg_cons a b hla]
    exact ih h
  case case4 a b hla ih =>
    rw [scanAligned_cons_cons] at h
    rw [List.cons_append, List.cons_append, hash_pair_cons a (b ++ l) hla,
      hash_pair_cons a b hla, ih h]
    simp
  case case5 a b ha ih =>
    rw [scanAligned.eq_def] at h
    simp [ha] at h
    rw [List.cons_append, hash_other_cons a (b ++ l) ha, hash_other_cons a b ha, ih h]
    simp

/-- Substituting, at one position of a flag list, one token that is neither
the marker nor a linker-argument value for a different such token always
changes the hash transcript. -/
theorem hash_sub_ne (u v : String) (post : List String) (huv : u ≠ v)
    (hu : u ≠ ("-C")) (hv : v ≠ ("-C"))
    (hlu : isLinkArg u = false) (hlv : isLinkArg v = false) :
    ∀ pre, Rustflags.hash (pre ++ u :: post) ≠ Rustflags.hash (pre ++ v :: post) := by
  intro pre
  induction pre using Rustflags.hash.induct
  case case1 =>
    rw [List.nil_append, List.nil_append, hash_other_cons u _ hu, hash_other_cons v _ hv]
    simp [huv]
  case case2 =>
    rw [List.singleton_append, List.singleton_append,
      hash_pair_cons u _ (by simp [hlu]), hash_pair_cons v _ (by simp [hlv])]
    simp [huv]
  case case3 a b hla ih =>
    rw [List.cons_append, List.cons_append, List.cons_append, List.cons_append,
      hash_linkArg_cons a _ hla, hash_linkArg_cons a _ hla]
    exact ih
  case case4 a b hla ih =>
    rw [List.cons_append, List.cons_append, List.cons_append, List.cons_append,
      hash_pair_cons a _ hla, hash_pair_cons a _ hla]
    simp only [ne_eq, List.cons.injEq, true_and]
    intro hcon
    exact ih hcon
  case case5 a b ha ih =>
    rw [List.cons_append, List.cons_append, hash_other_cons a _ ha, hash_other_cons a _ ha]
    simp only [ne_eq, List.cons.injEq, true_and]
    intro hcon
    exact ih hcon

/-- C1: `Rustflags::hash` scans tokens left to right; a marker token whose
following token is a linker-argument value causes both tokens to be skipped;
a marker with any other following token hashes both; a marker that is the
last token is hashed alone; every other token is hashed individually in
order. -/
theorem rustflags_hash_scan :
    (∀ next rest, isLinkArg next = true →
      Rustflags.hash (("-C") :: next :: rest) = Rustflags.hash rest)
    ∧ (∀ next rest, isLinkArg next = false →
      Rustflags.hash (("-C") :: next :: rest) = ("-C") :: next :: Rustflags.hash rest)
    ∧ Rustflags.hash [("-C")] = [("-C")]
    ∧ (∀ flag rest, flag ≠ ("-C") →
      Rustflags.hash (flag :: rest) = flag :: Rustflags.hash rest) :=
  ⟨fun next rest h => hash_linkArg_cons next rest h,
   fun next rest h => hash_pair_cons next rest (by simp [h]),
   by rfl,
   fun flag rest h => hash_other_cons flag rest h⟩

/-- Witness for C1 at concrete inputs covering each scan case. -/
theorem rustflags_hash_scan_witness :
    Rustflags.hash [("-C"), ("link-arg=-Tlink.x"), ("-O")] = Rustflags.hash [("-O")]
    ∧ Rustflags.hash [("-C"), ("opt-level=3")]
      = ("-C") :: ("opt-level=3") :: Rustflags.hash []
    ∧ Rustflags.hash [("-O"), ("-C")] = ("-O") :: Rustflags.hash [("-C")] :=
  ⟨rustflags_hash_scan.1 ("link-arg=-Tlink.x") [("-O")] (by decide),
   rustflags_hash_scan.2.1 ("opt-level=3") [] (by decide),
   rustflags_hash_scan.2.2.2 ("-O") [("-C")] (by decide)⟩

/-- C2 counterexample: the two flag lists differ only at the token following
a textual occurrence of the marker, and that token is a linker-argument
value in both lists, yet the hash transcripts differ — the second marker
occupies the argument slot of the first in the pairing scan, so the value is
hashed as an ordinary token. -/
theorem rustflags_hash_linker_cex :
    strStartsWith ("link-arg=a") ("link-arg=") = true
    ∧ strStartsWith ("link-arg=b") ("link-arg=") = true
    ∧ Rustflags.hash [("-C"), ("-C"), ("link-arg=a")]
      ≠ Rustflags.hash [("-C"), ("-C"), ("link-arg=b")] :=
  ⟨by decide, by decide, by decide⟩

/-- C2 amended: when the tokens before the marker are consumed completely by
the pairing scan (so the marker is recognized as a current token), flag
lists differing only in the linker-argument value of that pair hash
identically; and flag lists differing in one token that is neither the
marker nor a linker-argument value have different hash transcripts. -/
theorem rustflags_hash_linker_invariance :
    (∀ pre post v1 v2, scanAligned pre = true →
      isLinkArg v1 = true → isLinkArg v2 = true →
      Rustflags.hash (pre ++ ("-C") :: v1 :: post)
        = Rustflags.hash (pre ++ ("-C") :: v2 :: post))
    ∧ (∀ pre post u v, u ≠ v → u ≠ ("-C") → v ≠ ("-C") →
      isLinkArg u = false → isLinkArg v = false →
      Rustflags.hash (pre ++ u :: post) ≠ Rustflags.hash (pre ++ v :: post)) := by
  constructor
  · intro pre post v1 v2 hpre h1 h2
    rw [hash_append_of_aligned _ pre hpre, hash_append_of_aligned _ pre hpre,
      hash_linkArg_cons v1 post h1, hash_linkArg_cons v2 post h2]
  · intro pre post u v huv hu hv hlu hlv
    exact hash_sub_ne u v post huv hu hv hlu hlv pre

/-- Witness for C2 at concrete inputs: an aligned prefix with a varying
linker-argument value, and a one-token difference in a non-linker flag. -/
theorem rustflags_hash_linker_invariance_witness :
    Rustflags.hash [("-g"), ("-C"), ("link-arg=a"), ("-O")]
      = Rustflags.hash [("-g"), ("-C"), ("link-args=bb"), ("-O")]
    ∧ Rustflags.hash [("-g")] ≠ Rustflags.hash [("-O")] :=
  ⟨rustflags_hash_linker_invariance.1 [("-g")] [("-O")] ("link-arg=a") ("link-args=bb")
      (by decide) (by decide) (by decide),
   rustflags_hash_linker_invariance.2 [] [] ("-g") ("-O") (by decide) (by decide)
      (by decide) (by decide) (by decide)⟩

/-- C3: release-profile tables that agree after removal of the `lto` key
contribute identically to the cache key; a table that is empty after the
removal contributes nothing to the hasher; a table that stays non-empty
contributes exactly the hash of its canonical serialized text. -/
theorem profile_hash_lto :
    (∀ t1 t2, removeKey t1 ("lto") = removeKey t2 ("lto") →
      Profile.hash (Value.table t1) = Profile.hash (Value.table t2))
    ∧ (∀ t, removeKey t ("lto") = [] → Profile.hash (Value.table t) = [])
    ∧ (∀ t, removeKey t ("lto") ≠ [] →
      Profile.hash (Value.table t)
        = [Value.serialize (Value.table (removeKey t ("lto")))]) := by
  refine ⟨?_, ?_, ?_⟩
  · intro t1 t2 h
    simp only [Profile.hash, h]
  · intro t h
    simp [Profile.hash, h]
  · intro t h
    simp [Profile.hash, h]

/-- Witness for C3: tables differing only in `lto`, a table left empty by
the removal, and one left non-empty. -/
theorem profile_hash_lto_witness :
    Profile.hash (Value.table [(("lto"), Value.boolean true), (("opt-level"), Value.int 3)])
      = Profile.hash (Value.table [(("opt-level"), Value.int 3), (("lto"), Value.boolean false)])
    ∧ Profile.hash (Value.table [(("lto"), Value.boolean true)]) = []
    ∧ Profile.hash (Value.table [(("opt-level"), Value.int 3)])
      = [Value.serialize (Value.table (removeKey [(("opt-level"), Value.int 3)] ("lto")))] :=
  ⟨profile_hash_lto.1 _ _ (by simp [removeKey]),
   profile_hash_lto.2.1 _ (by simp [removeKey]),
   profile_hash_lto.2.2 _ (by simp [removeKey])⟩

/-- An array body containing a non-string element yields no string list. -/
theorem asStrings_eq_none (vs : List Value)
    (h : vs.all (fun v => match v with | Value.str _ => true | _ => false) = false) :
    asStrings vs = none := by
  induction vs using asStrings.induct
  case case1 => simp at h
  case case2 s rest ih =>
    rw [List.all_cons] at h
    simp only [Bool.true_and] at h
    simp [asStrings, ih h]
  case case3 v rest hv =>
    cases v with
    | str s => exact (hv s rfl).elim
    | int i => simp [asStrings]
    | boolean b => simp [asStrings]
    | array a => simp [asStrings]
    | table t => simp [asStrings]

/-- Validation fails with exactly the supplied message whenever the entry is
not an array of strings. -/
theorem checkArray_error (v : Value) (msg : String) (h : isStringArray v = false) :
    checkArray v msg = Except.error msg := by
  cases v with
  | array vs =>
    rw [isStringArray] at h
    simp [checkArray, asStrings_eq_none vs h]
  | str s => rfl
  | int i => rfl
  | boolean b => rfl
  | table kvs => rfl

/-- C4: flag resolution precedence — a set environment variable named by the
uppercased tool category is whitespace-tokenized and returned with every
config source ignored; otherwise a present target-scoped entry alone
determines the result; otherwise a present build-wide entry does; and with
neither entry, or no config tree at all, the result is the empty flag
list, not an error. -/
theorem flags_precedence :
    (∀ env cfg target tool v, envVar env (toUpperStr tool) = some v →
      flags env cfg target tool = Except.ok (splitWhitespace v))
    ∧ (∀ env cfg target tool a, envVar env (toUpperStr tool) = none →
      Value.lookup cfg.table (("target.") ++ target ++ (".") ++ tool) = some a →
      flags env (some cfg) target tool
        = checkArray a ((".cargo/config: target.") ++ target ++ (".") ++ tool
            ++ (" must be an array of strings")))
    ∧ (∀ env cfg target tool a, envVar env (toUpperStr tool) = none →
      Value.lookup cfg.table (("target.") ++ target ++ (".") ++ tool) = none →
      Value.lookup cfg.table (("build.") ++ tool) = some a →
      flags env (some cfg) target tool
        = checkArray a ((".cargo/config: build.") ++ tool
            ++ (" must be an array of strings")))
    ∧ (∀ env cfg target tool, envVar env (toUpperStr tool) = none →
      Value.lookup cfg.table (("target.") ++ target ++ (".") ++ tool) = none →
      Value.lookup cfg.table (("build.") ++ tool) = none →
      flags env (some cfg) target tool = Except.ok [])
    ∧ (∀ env target tool, envVar env (toUpperStr tool) = none →
      flags env none target tool = Except.ok []) := by
  refine ⟨?_, ?_, ?_, ?_, ?_⟩ <;> intros <;> simp_all [flags]

/-- Sample configuration with both a target-scoped and a build-wide entry. -/
def cfgSample : Config :=
  { parent_path := ("/proj")
    table := Value.table
      [(("target"), Value.table
          [(("mytriple"), Value.table
              [(("rustflags"), Value.array [Value.str ("-x")])])]),
       (("build"), Value.table
          [(("rustflags"), Value.array [Value.str ("-y")])])] }

/-- Sample configuration with an empty table. -/
def cfgEmpty : Config := { parent_path := ("/proj"), table := Value.table [] }

/-- Witness for C4 covering every precedence layer. -/
theorem flags_precedence_witness :
    flags [(("RUSTFLAGS"), ("-g -O"))] (some cfgSample) ("mytriple") ("rustflags")
      = Except.ok (splitWhitespace ("-g -O"))
    ∧ flags [] (some cfgSample) ("mytriple") ("rustflags") = Except.ok [("-x")]
    ∧ flags [] (some cfgSample) ("othertriple") ("rustflags") = Except.ok [("-y")]
    ∧ flags [] (some cfgEmpty) ("mytriple") ("rustflags") = Except.ok []
    ∧ flags [] none ("mytriple") ("rustflags") = Except.ok [] :=
  ⟨flags_precedence.1 _ _ _ _ ("-g -O") (by rfl),
   (flags_precedence.2.1 [] cfgSample ("mytriple") ("rustflags") _ (by rfl) (by rfl)).trans
     (by rfl),
   (flags_precedence.2.2.1 [] cfgSample ("othertriple") ("rustflags") _ (by rfl) (by rfl)
     (by rfl)).trans (by rfl),
   flags_precedence.2.2.2.1 [] cfgEmpty ("mytriple") ("rustflags") (by rfl) (by rfl) (by rfl),
   flags_precedence.2.2.2.2 [] ("mytriple") ("rustflags") (by rfl)⟩

/-- C5: a matched config entry that is not an array of strings makes flag
resolution fail with a configuration-format error naming the offending key
path — the target-scoped path when the target entry matched, the build-wide
path when the build entry matched — and an error carries no flag list. -/
theorem flags_malformed_error :
    (∀ env cfg target tool a, envVar env (toUpperStr tool) = none →
      Value.lookup cfg.table (("target.") ++ target ++ (".") ++ tool) = some a →
      isStringArray a = false →
      flags env (some cfg) target tool
        = Except.error ((".cargo/config: target.") ++ target ++ (".") ++ tool
            ++ (" must be an array of strings")))
    ∧ (∀ env cfg target tool a, envVar env (toUpperStr tool) = none →
      Value.lookup cfg.table (("target.") ++ target ++ (".") ++ tool) = none →
      Value.lookup cfg.table (("build.") ++ tool) = some a →
      isStringArray a = false →
      flags env (some cfg) target tool
        = Except.error ((".cargo/config: build.") ++ tool
            ++ (" must be an array of strings"))) := by
  constructor
  · intro env cfg target tool a h1 h2 h3
    simp [flags, h1, h2, checkArray_error a _ h3]
  · intro env cfg target tool a h1 h2 h3 h4
    simp [flags, h1, h2, h3, checkArray_error a _ h4]

/-- Configuration whose target-scoped entry is a bare string, not an array. -/
def cfgBadTarget : Config :=
  { parent_path := ("/proj")
    table := Value.table
      [(("target"), Value.table
          [(("mytriple"), Value.table [(("rustflags"), Value.str ("-x"))])])] }

/-- Configuration whose build-wide entry is an array holding an integer. -/
def cfgBadBuild : Config :=
  { parent_path := ("/proj")
    table := Value.table
      [(("build"), Value.table [(("rustflags"), Value.array [Value.int 1])])] }

/-- Witness for C5: a string entry at the target-scoped key and a
non-string array element at the build-wide key. -/
theorem flags_malformed_error_witness :
    flags [] (some cfgBadTarget) ("mytriple") ("rustflags")
      = Except.error ((".cargo/config: target.mytriple.rustflags must be an array of strings"))
    ∧ flags [] (some cfgBadBuild) ("mytriple") ("rustflags")
      = Except.error ((".cargo/config: build.rustflags must be an array of strings")) :=
  ⟨(flags_malformed_error.1 [] cfgBadTarget ("mytriple") ("rustflags")
      (Value.str ("-x")) (by rfl) (by rfl) (by rfl)).trans (by rfl),
   (flags_malformed_error.2 [] cfgBadBuild ("mytriple") ("rustflags")
      (Value.array [Value.int 1]) (by rfl) (by rfl) (by rfl) (by rfl)).trans (by rfl)⟩

/-- C6: rendering flags for invocation fails exactly on a sysroot path
containing a space while the override variable is unset; with the override
set, or without a space, it succeeds with the original tokens followed by
`--sysroot` and the path, joined by single spaces. -/
theorem for_xargo_sysroot_spaces :
    (∀ env self sysroot, envVar env (("XBUILD_ALLOW_SYSROOT_SPACES")) = none →
      containsSpace sysroot = true →
      Rustflags.for_xargo env self sysroot = Except.error (sysrootSpaceError sysroot))
    ∧ (∀ env self sysroot v, envVar env (("XBUILD_ALLOW_SYSROOT_SPACES")) = some v →
      Rustflags.for_xargo env self sysroot
        = Except.ok (String.intercalate (" ") (self ++ [("--sysroot"), sysroot])))
    ∧ (∀ env self sysroot, containsSpace sysroot = false →
      Rustflags.for_xargo env self sysroot
        = Except.ok (String.intercalate (" ") (self ++ [("--sysroot"), sysroot]))) := by
  refine ⟨?_, ?_, ?_⟩ <;> intros <;> simp_all [Rustflags.for_xargo]

/-- Witness for C6: a sysroot with a space rejected, the same sysroot
accepted under the override, and a space-free sysroot accepted. -/
theorem for_xargo_sysroot_spaces_witness :
    Rustflags.for_xargo [] [("-v")] ("/my root")
      = Except.error (sysrootSpaceError ("/my root"))
    ∧ Rustflags.for_xargo [(("XBUILD_ALLOW_SYSROOT_SPACES"), ("1"))] [("-v")] ("/my root")
      = Except.ok (String.intercalate (" ") ([("-v")] ++ [("--sysroot"), ("/my root")]))
    ∧ Rustflags.for_xargo [] [("-v")] ("/root")
      = Except.ok (String.intercalate (" ") ([("-v")] ++ [("--sysroot"), ("/root")])) :=
  ⟨for_xargo_sysroot_spaces.1 [] [("-v")] ("/my root") (by rfl) (by decide),
   for_xargo_sysroot_spaces.2.1 [(("XBUILD_ALLOW_SYSROOT_SPACES"), ("1"))] [("-v")]
     ("/my root") ("1") (by rfl),
   for_xargo_sysroot_spaces.2.2 [] [("-v")] ("/root") (by decide)⟩

/-- C7: the invoker returns the external process's raw exit status as data —
any exit status, zero or not, comes back inside the success value — and the
trace of every run leaves no lock held at the end, with no release occurring
before the process is spawned. -/
theorem run_status_and_locks :
    (∀ w f s, w.forXargo = Except.ok f → w.spawnResult = Except.ok s →
      (xargo.run w).1 = Except.ok s)
    ∧ (∀ w, heldAfter ((xargo.run w).2) = [])
    ∧ (∀ w t, Event.releaseRO t ∉
        ((xargo.run w).2.takeWhile (fun e => decide (e ≠ Event.spawn)))) := by
  refine ⟨?_, ?_, ?_⟩
  · intro w f s h1 h2
    simp [xargo.run, h1, h2]
  · intro w
    rcases w with ⟨fx, hT, tT, hOk, tOk, sp⟩
    cases fx with
    | error e => simp [xargo.run, heldAfter]
    | ok f =>
      cases sp <;> cases hOk <;> cases tOk <;>
        by_cases htt : tT = hT <;>
        simp [xargo.run, dropLocks, heldAfter, applyEvent, removeFirst, htt]
  · intro w t
    rcases w with ⟨fx, hT, tT, hOk, tOk, sp⟩
    cases fx with
    | error e => simp [xargo.run]
    | ok f => cases sp <;> simp [xargo.run, dropLocks, List.takeWhile]

/-- Witness for C7: a run whose process exits with the nonzero status 101
still returns it as a success value, every lock is released, and no release
happens before the spawn. -/
theorem run_status_and_locks_witness :
    (xargo.run
      { forXargo := Except.ok ("-v"), hostTriple := ("x86_64-linux"),
        targetTriple := ("thumbv7m-none-eabi"), lockHostOk := true,
        lockTargetOk := true, spawnResult := Except.ok 101 }).1 = Except.ok 101
    ∧ heldAfter ((xargo.run
      { forXargo := Except.ok ("-v"), hostTriple := ("x86_64-linux"),
        targetTriple := ("thumbv7m-none-eabi"), lockHostOk := true,
        lockTargetOk := true, spawnResult := Except.ok 101 }).2) = [] :=
  ⟨run_status_and_locks.1 _ ("-v") 101 (by rfl) (by rfl),
   run_status_and_locks.2.1 _⟩

/-- C8: the invoker never turns a failed lock acquisition into an error —
both lock results are stored unexamined, the external driver is spawned and
its outcome alone decides the result, and at the moment of the spawn only
the successfully acquired locks are held, never a failed one. -/
theorem run_ignores_lock_failures :
    ∀ w f, w.forXargo = Except.ok f →
      Event.spawn ∈ (xargo.run w).2
      ∧ (xargo.run w).1 = w.spawnResult
      ∧ heldBeforeSpawn w
          = (if w.lockTargetOk then [w.targetTriple] else [])
            ++ (if w.lockHostOk then [w.hostTriple] else []) := by
  intro w f h
  rcases w with ⟨fx, hT, tT, hOk, tOk, sp⟩
  cases fx with
  | error e => exact absurd h (by simp)
  | ok g =>
    cases sp <;> cases hOk <;> cases tOk <;>
      simp [xargo.run, dropLocks, heldBeforeSpawn, heldAfter, applyEvent,
        List.takeWhile]

/-- Witness for C8: both lock acquisitions fail, yet the driver is spawned,
its exit status 3 is returned, and nothing is locked while it runs. -/
theorem run_ignores_lock_failures_witness :
    Event.spawn ∈ (xargo.run
      { forXargo := Except.ok ("-v"), hostTriple := ("x86_64-linux"),
        targetTriple := ("thumbv7m-none-eabi"), lockHostOk := false,
        lockTargetOk := false, spawnResult := Except.ok 3 }).2
    ∧ (xargo.run
      { forXargo := Except.ok ("-v"), hostTriple := ("x86_64-linux"),
        targetTriple := ("thumbv7m-none-eabi"), lockHostOk := false,
        lockTargetOk := false, spawnResult := Except.ok 3 }).1 = Except.ok 3
    ∧ heldBeforeSpawn
      { forXargo := Except.ok ("-v"), hostTriple := ("x86_64-linux"),
        targetTriple := ("thumbv7m-none-eabi"), lockHostOk := false,
        lockTargetOk := false, spawnResult := Except.ok 3 } = [] :=
  run_ignores_lock_failures _ ("-v") (by rfl)

/-- Membership survives removal of one occurrence of another element. -/
theorem mem_of_mem_removeFirst {a b : String} :
    ∀ {l : List String}, a ∈ removeFirst l b → a ∈ l := by
  intro l
  induction l with
  | nil => simp [removeFirst]
  | cons x xs ih =>
    rw [removeFirst]
    split_ifs with hx
    · exact fun h => List.mem_cons_of_mem x h
    · intro h
      rcases List.mem_cons.mp h with h | h
      · exact h ▸ List.mem_cons_self x xs
      · exact List.mem_cons_of_mem x (ih h)

/-- Removal of one occurrence preserves duplicate-freedom. -/
theorem nodup_removeFirst {b : String} :
    ∀ {l : List String}, l.Nodup → (removeFirst l b).Nodup := by
  intro l
  induction l with
  | nil => simp [removeFirst]
  | cons x xs ih =>
    rw [removeFirst]
    intro hnd
    rcases List.nodup_cons.mp hnd with ⟨hx, hxs⟩
    split_ifs with heq
    · exact hxs
    · exact List.nodup_cons.mpr ⟨fun hmem => hx (mem_of_mem_removeFirst hmem), ih hxs⟩

/-- Characterization of a successful shared acquisition. -/
theorem lock_ro_eq {st st' : LockState} {p : String}
    (h : Home.lock_ro st p = some st') :
    p ∉ st.writers ∧ st' = { readers := p :: st.readers, writers := st.writers } := by
  by_cases hm : p ∈ st.writers
  · rw [Home.lock_ro, if_pos hm] at h
    exact Option.noConfusion h
  · rw [Home.lock_ro, if_neg hm] at h
    injection h with h
    exact ⟨hm, h.symm⟩

/-- Characterization of a successful exclusive acquisition. -/
theorem lock_rw_eq {st st' : LockState} {p : String}
    (h : Home.lock_rw st p = some st') :
    ¬(p ∈ st.writers ∨ p ∈ st.readers)
      ∧ st' = { readers := st.readers, writers := p :: st.writers } := by
  by_cases hm : p ∈ st.writers ∨ p ∈ st.readers
  · rw [Home.lock_rw, if_pos hm] at h
    exact Option.noConfusion h
  · rw [Home.lock_rw, if_neg hm] at h
    injection h with h
    exact ⟨hm, h.symm⟩

/-- Shared acquisition succeeds exactly when no write lock is held. -/
theorem lock_ro_isSome {st : LockState} {p : String} :
    (Home.lock_ro st p).isSome = true ↔ p ∉ st.writers := by
  rw [Home.lock_ro]
  split_ifs with hm <;> simp [hm]

/-- Exclusive acquisition succeeds exactly when nothing is held. -/
theorem lock_rw_isSome {st : LockState} {p : String} :
    (Home.lock_rw st p).isSome = true ↔ ¬(p ∈ st.writers ∨ p ∈ st.readers) := by
  rw [Home.lock_rw]
  split_ifs with hm <;> simp [hm]

/-- Acquiring one path leaves membership of every other path unchanged. -/
theorem acquire_mem {m : Bool} {st st' : LockState} {p q : String} (hq : q ≠ p)
    (h : acquire m st p = some st') :
    (q ∈ st'.writers ↔ q ∈ st.writers) ∧ (q ∈ st'.readers ↔ q ∈ st.readers) := by
  cases m with
  | false =>
    rcases lock_ro_eq h with ⟨-, heq⟩
    subst heq
    simp [hq]
  | true =>
    rcases lock_rw_eq h with ⟨-, heq⟩
    subst heq
    simp [hq]

/-- Every reachable lock state is well formed: the write locks held are
pairwise distinct paths, and no path is locked in both modes at once. -/
theorem reach_wf {st : LockState} (h : Reach st) :
    st.writers.Nodup ∧ ∀ p, p ∈ st.writers → p ∉ st.readers := by
  induction h with
  | init => simp
  | ro hr heq ih =>
    rcases lock_ro_eq heq with ⟨hmem, heq⟩
    subst heq
    refine ⟨ih.1, fun q hq => ?_⟩
    rw [List.mem_cons]
    push_neg
    exact ⟨fun hqp => hmem (hqp ▸ hq), ih.2 q hq⟩
  | rw hr heq ih =>
    rcases lock_rw_eq heq with ⟨hmem, heq⟩
    subst heq
    push_neg at hmem
    refine ⟨List.nodup_cons.mpr ⟨hmem.1, ih.1⟩, fun q hq => ?_⟩
    rcases List.mem_cons.mp hq with hq | hq
    · exact hq ▸ hmem.2
    · exact ih.2 q hq
  | relRO hr ih =>
    exact ⟨ih.1, fun q hq hmem => ih.2 q hq (mem_of_mem_removeFirst hmem)⟩
  | relRW hr ih =>
    exact ⟨nodup_removeFirst ih.1,
      fun q hq => ih.2 q (mem_of_mem_removeFirst hq)⟩

/-- Sentinel paths of distinct triples under one sysroot are distinct. -/
theorem lockPath_inj {s t1 t2 : String} (hne : t1 ≠ t2) :
    lockPath s t1 ≠ lockPath s t2 := by
  intro heq
  apply hne
  have hd := congrArg String.data heq
  simp only [lockPath, String.data_append, List.append_assoc] at hd
  have h2 := List.append_cancel_left hd
  have h3 := List.append_cancel_left h2
  have h4 := List.append_cancel_right h3
  cases t1
  cases t2
  exact congrArg String.mk (by simpa using h4)

/-- C9: in every reachable lock state no sentinel path carries two write
locks, or a write lock together with a read lock, so two exclusive locks on
one `(sysroot, triple)` pair — or an exclusive and a shared one — never both
succeed; an acquisition fails while a conflicting lock on the same path is
held; and locks on distinct triples under one sysroot are independent:
acquiring on one triple never invalidates an acquisition possible on the
other, in any combination of modes. -/
theorem lock_protocol :
    (∀ st, Reach st → st.writers.Nodup ∧ ∀ p, p ∈ st.writers → p ∉ st.readers)
    ∧ (∀ st p, p ∈ st.readers → Home.lock_rw st p = none)
    ∧ (∀ st p, p ∈ st.writers → Home.lock_rw st p = none ∧ Home.lock_ro st p = none)
    ∧ (∀ s t1 t2, t1 ≠ t2 → lockPath s t1 ≠ lockPath s t2)
    ∧ (∀ m1 m2 st st' s t1 t2, t1 ≠ t2 →
      acquire m1 st (lockPath s t1) = some st' →
      (acquire m2 st (lockPath s t2)).isSome = true →
      (acquire m2 st' (lockPath s t2)).isSome = true) := by
  refine ⟨fun st h => reach_wf h, ?_, ?_, fun s t1 t2 hne => lockPath_inj hne, ?_⟩
  · intro st p hp
    rw [Home.lock_rw, if_pos (Or.inr hp)]
  · intro st p hp
    exact ⟨by rw [Home.lock_rw, if_pos (Or.inl hp)], by rw [Home.lock_ro, if_pos hp]⟩
  · intro m1 m2 st st' s t1 t2 hne hacq hpos
    have hp : lockPath s t2 ≠ lockPath s t1 := fun h => lockPath_inj hne h.symm
    have hmem := acquire_mem hp hacq
    cases m2 with
    | false =>
      rw [show acquire false st' (lockPath s t2) = Home.lock_ro st' (lockPath s t2) from rfl,
        lock_ro_isSome]
      rw [show acquire false st (lockPath s t2) = Home.lock_ro st (lockPath s t2) from rfl,
        lock_ro_isSome] at hpos
      exact fun hmem2 => hpos (hmem.1.mp hmem2)
    | true =>
      rw [show acquire true st' (lockPath s t2) = Home.lock_rw st' (lockPath s t2) from rfl,
        lock_rw_isSome]
      rw [show acquire true st (lockPath s t2) = Home.lock_rw st (lockPath s t2) from rfl,
        lock_rw_isSome] at hpos
      rintro (hmem2 | hmem2)
      · exact hpos (Or.inl (hmem.1.mp hmem2))
      · exact hpos (Or.inr (hmem.2.mp hmem2))

/-- Witness for C9: the initial state is well formed, a held read lock
blocks a write lock on the same path, distinct triples map to distinct
sentinel paths, and a write lock on one triple leaves the other triple
acquirable. -/
theorem lock_protocol_witness :
    (({ readers := [], writers := [] } : LockState).writers.Nodup
      ∧ ∀ p, p ∈ ({ readers := [], writers := [] } : LockState).writers →
          p ∉ ({ readers := [], writers := [] } : LockState).readers)
    ∧ Home.lock_rw { readers := [lockPath ("/sys") ("t1")], writers := [] }
        (lockPath ("/sys") ("t1")) = none
    ∧ lockPath ("/sys") ("t1") ≠ lockPath ("/sys") ("t2")
    ∧ (acquire true { readers := [], writers := [lockPath ("/sys") ("t1")] }
        (lockPath ("/sys") ("t2"))).isSome = true :=
  ⟨lock_protocol.1 _ Reach.init,
   lock_protocol.2.1 _ _ (by simp),
   lock_protocol.2.2.2.1 ("/sys") ("t1") ("t2") (by decide),
   lock_protocol.2.2.2.2 true true { readers := [], writers := [] }
     { readers := [], writers := [lockPath ("/sys") ("t1")] }
     ("/sys") ("t1") ("t2") (by decide) (by rfl) (by rfl)⟩

/-- C10: a configured `build.target` ending in `.json` is resolved by
joining it against the configuration's parent directory and canonicalizing,
and the canonical path is what is returned; when the referenced file does
not exist the resolution fails with an error naming the joined path and the
underlying cause; and a non-string `build.target` fails with an error naming
`build.target`. -/
theorem config_target_resolution :
    (∀ canonicalize c t canon,
      Value.lookup c.table (("build.target")) = some (Value.str t) →
      strEndsWith t ((".json")) = true →
      canonicalize (pathJoin c.parent_path t) = Except.ok canon →
      Config.target canonicalize c = Except.ok (some canon))
    ∧ (∀ canonicalize c t cause,
      Value.lookup c.table (("build.target")) = some (Value.str t) →
      strEndsWith t ((".json")) = true →
      canonicalize (pathJoin c.parent_path t) = Except.error cause →
      Config.target canonicalize c
        = Except.error (("target JSON file ") ++ pathJoin c.parent_path t
            ++ (" does not exist: ") ++ cause))
    ∧ (∀ canonicalize c v,
      Value.lookup c.table (("build.target")) = some v →
      (∀ s, v ≠ Value.str s) →
      Config.target canonicalize c
        = Except.error ((".cargo/config: build.target must be a string"))) := by
  refine ⟨?_, ?_, ?_⟩
  · intro cf c t canon h1 h2 h3
    simp [Config.target, h1, h2, h3]
  · intro cf c t cause h1 h2 h3
    simp [Config.target, h1, h2, h3]
  · intro cf c v h1 h2
    cases v with
    | str s => exact absurd rfl (h2 s)
    | int i => simp [Config.target, h1]
    | boolean b => simp [Config.target, h1]
    | array a => simp [Config.target, h1]
    | table t => simp [Config.target, h1]

/-- Configuration naming a custom target-description file. -/
def cfgJson : Config :=
  { parent_path := ("/proj")
    table := Value.table
      [(("build"), Value.table [(("target"), Value.str ("custom.json"))])] }

/-- Configuration whose `build.target` is an integer. -/
def cfgBadTargetType : Config :=
  { parent_path := ("/proj")
    table := Value.table [(("build"), Value.table [(("target"), Value.int 1)])] }

/-- Witness for C10: resolution through a filesystem in which the joined
path canonicalizes, one in which it does not exist, and a non-string
`build.target`. -/
theorem config_target_resolution_witness :
    Config.target
      (fun p => if p = ("/proj/custom.json")
        then Except.ok (("/real/proj/custom.json"))
        else Except.error (("No such file or directory"))) cfgJson
      = Except.ok (some ("/real/proj/custom.json"))
    ∧ Config.target (fun _ => Except.error (("No such file or directory"))) cfgJson
      = Except.error (("target JSON file /proj/custom.json does not exist: ")
          ++ ("No such file or directory"))
    ∧ Config.target (fun p => Except.ok p) cfgBadTargetType
      = Except.error ((".cargo/config: build.target must be a string")) :=
  ⟨config_target_resolution.1 _ cfgJson ("custom.json") ("/real/proj/custom.json")
      (by rfl) (by rfl) (by rfl),
   config_target_resolution.2.1 _ cfgJson ("custom.json") ("No such file or directory")
      (by rfl) (by rfl) (by rfl),
   config_target_resolution.2.2 _ cfgBadTargetType (Value.int 1) (by rfl)
      (fun s h => Value.noConfusion h)⟩
